import Mathlib

/-!
Shallow embedding of the volttron-lib-sql-historian persistence engine
(src/volttron/historian/sql/historian.py and basedb.py), together with
proofs that settle the specification claims about it.

Modelling conventions:
- Python dictionaries become association lists; insertion keeps the
  position of an existing key, as dict assignment does.
- Metadata mappings are association lists of string pairs compared by
  structural equality, mirroring dict equality in the publish pipeline.
- Database effects are modelled as an explicit log of executed
  statements: statements first accumulate in a pending list and move to
  the committed list only on a successful commit; rollback clears the
  pending list.  Statement failures are injected through an environment
  that names the index of the statement execution that raises.
- Exceptions are an Except value whose error carries the state at the
  raise point, so the except-branch of publish_to_historian can be
  modelled faithfully.
-/

namespace VolttronSQL

/-! ### Association-list maps (Python dict model) -/

/-- Lookup in an association list, first binding wins (dict get). -/
def alook {K V : Type} [DecidableEq K] : List (K × V) → K → Option V
  | [], _ => none
  | (k', v) :: rest, k => if k' = k then some v else alook rest k

/-- Dict assignment: replace an existing binding in place, else append. -/
def aset {K V : Type} [DecidableEq K] : List (K × V) → K → V → List (K × V)
  | [], k, v => [(k, v)]
  | (k', v') :: rest, k, v =>
    if k' = k then (k, v) :: rest else (k', v') :: aset rest k v

/-- Python dict.update: fold the new bindings into the map. -/
def aupdate {K V : Type} [DecidableEq K] (m newm : List (K × V)) : List (K × V) :=
  newm.foldl (fun acc kv => aset acc kv.1 kv.2) m

theorem alook_aset_self {K V : Type} [DecidableEq K] (m : List (K × V)) (k : K) (v : V) :
    alook (aset m k v) k = some v := by
  induction m with
  | nil => simp [aset, alook]
  | cons hd tl ih =>
    by_cases h : hd.1 = k
    · simp [aset, alook, h]
    · simp [aset, alook, h, ih]

theorem alook_aset_ne {K V : Type} [DecidableEq K] (m : List (K × V)) (k k' : K) (v : V)
    (h : k ≠ k') : alook (aset m k v) k' = alook m k' := by
  induction m with
  | nil => simp [aset, alook, h]
  | cons hd tl ih =>
    by_cases hh : hd.1 = k
    · simp [aset, alook, hh, h]
    · simp only [aset, alook, if_neg hh]
      by_cases hk' : hd.1 = k' <;> simp [alook, hk', ih]

/-- Python str.lower() on topic names (ASCII case folding, applied
character by character). -/
def pyLower (s : String) : String := ⟨s.data.map Char.toLower⟩

/-! ### Data model of the publish pipeline -/

/-- Metadata mapping attached to a topic (Python dict, structural equality). -/
abbrev MetaMap := List (String × String)

/-- One record of a publish batch: (timestamp, topic, value, meta). -/
structure Record where
  ts : Nat
  topic : String
  value : Int
  meta : MetaMap
  deriving DecidableEq, Repr

/-- The parameterized statements the DbDriver can execute, with their
arguments, mirroring the statement generators of basedb.py. -/
inductive Stmt where
  | insertTopic (topic : String)
  | insertTopicAndMeta (topic : String) (meta : MetaMap)
  | updateTopic (topic : String) (topicId : Nat)
  | updateTopicAndMeta (topic : String) (meta : MetaMap) (topicId : Nat)
  | insertMeta (topicId : Nat) (meta : MetaMap)
  | updateMeta (meta : MetaMap) (topicId : Nat)
  | insertData (ts : Nat) (topicId : Nat) (value : Int)
  | replaceAggMeta (topicId : Nat) (meta : MetaMap)
  deriving DecidableEq, Repr

/-- A statement that writes metadata to the store (insert or update,
alone or combined with a topic write). -/
def Stmt.isMetaWrite : Stmt → Bool
  | .insertTopicAndMeta _ _ => true
  | .updateTopicAndMeta _ _ _ => true
  | .insertMeta _ _ => true
  | .updateMeta _ _ => true
  | .replaceAggMeta _ _ => true
  | _ => false

/-- A metadata write issued separately from a topic insert or update
(the bulk metadata insert or the metadata-only update). -/
def Stmt.isSeparateMetaWrite : Stmt → Bool
  | .insertMeta _ _ => true
  | .updateMeta _ _ => true
  | _ => false

/-- Transactional view of the backing store: statements executed but not
yet committed, and the durable committed log. -/
structure DbLog where
  pending : List Stmt
  committed : List Stmt
  deriving DecidableEq, Repr

/-- The in-memory topic catalog cache of SQLHistorian:
topic_id_map, topic_name_map, topic_meta and agg_topic_id_map. -/
structure Cache where
  topic_id_map : List (String × Nat)
  topic_name_map : List (String × String)
  topic_meta : List (Nat × MetaMap)
  agg_topic_id_map : List ((String × String × String) × Nat)
  deriving DecidableEq, Repr

/-- Full state threaded through the publish pipeline: the cache, the
statement log, the next id a topic insert will be assigned (lastrowid),
and the count of statement executions so far (for failure injection). -/
structure PubState where
  cache : Cache
  db : DbLog
  nextId : Nat
  execCount : Nat
  deriving DecidableEq, Repr

/-- Environment of a publish attempt.  colocated models
topics_table == meta_table; failAt injects an exception into the n-th
statement execution; connectionOpen models whether the driver connection
is non-null during commit/rollback; commitRaises injects a commit
exception. -/
structure PubEnv where
  colocated : Bool
  failAt : Option Nat
  connectionOpen : Bool
  commitRaises : Bool
  deriving DecidableEq, Repr

/-- Errors that can propagate out of the publish pipeline. -/
inductive DbErr where
  | stmtFailed
  | commitError
  deriving DecidableEq, Repr

/-- Append one executed statement to the pending transaction. -/
def pushStmt (st : PubState) (q : Stmt) : PubState :=
  { st with
    db := { st.db with pending := st.db.pending ++ [q] },
    execCount := st.execCount + 1 }

/-- Execute one statement via the driver cursor: either raise (carrying
the state at the raise point) or record the statement as pending. -/
def execStmt (env : PubEnv) (st : PubState) (q : Stmt) :
    Except (DbErr × PubState) PubState :=
  if env.failAt = some st.execCount then
    .error (.stmtFailed, { st with execCount := st.execCount + 1 })
  else
    .ok (pushStmt st q)

namespace DbDriver

/-- DbDriver.insert_meta: executes insert_meta_query and returns True. -/
def insert_meta (env : PubEnv) (st : PubState) (topic_id : Nat) (metadata : MetaMap) :
    Except (DbErr × PubState) (Bool × PubState) := do
  let st ← execStmt env st (.insertMeta topic_id metadata)
  pure (true, st)

/-- DbDriver.update_meta: executes update_meta_query and returns True. -/
def update_meta (env : PubEnv) (st : PubState) (topic_id : Nat) (metadata : MetaMap) :
    Except (DbErr × PubState) (Bool × PubState) := do
  let st ← execStmt env st (.updateMeta metadata topic_id)
  pure (true, st)

/-- DbDriver.insert_data: executes insert_data_query and returns True. -/
def insert_data (env : PubEnv) (st : PubState) (ts : Nat) (topic_id : Nat) (data : Int) :
    Except (DbErr × PubState) (Bool × PubState) := do
  let st ← execStmt env st (.insertData ts topic_id data)
  pure (true, st)

/-- DbDriver.insert_agg_meta: executes replace_agg_meta_stmt and returns True. -/
def insert_agg_meta (env : PubEnv) (st : PubState) (topic_id : Nat) (metadata : MetaMap) :
    Except (DbErr × PubState) (Bool × PubState) := do
  let st ← execStmt env st (.replaceAggMeta topic_id metadata)
  pure (true, st)

/-- DbDriver.insert_topic: insert a topic, combined with metadata in one
statement when the tables are co-located and both topic and metadata are
truthy; returns the assigned id (cursor.lastrowid). -/
def insert_topic (env : PubEnv) (st : PubState) (topic : String) (metadata : Option MetaMap) :
    Except (DbErr × PubState) (Nat × PubState) := do
  let q :=
    if env.colocated = true ∧ topic ≠ "" ∧ metadata.getD [] ≠ [] then
      Stmt.insertTopicAndMeta topic (metadata.getD [])
    else
      Stmt.insertTopic topic
  let st ← execStmt env st q
  pure (st.nextId, { st with nextId := st.nextId + 1 })

/-- DbDriver.update_topic: update a topic name, combined with metadata in
one statement when co-located and both topic and metadata are truthy;
returns True. -/
def update_topic (env : PubEnv) (st : PubState) (topic : String) (topic_id : Nat)
    (metadata : Option MetaMap) : Except (DbErr × PubState) (Bool × PubState) := do
  if env.colocated = true ∧ topic ≠ "" ∧ metadata.getD [] ≠ [] then
    let st ← execStmt env st (.updateTopicAndMeta topic (metadata.getD []) topic_id)
    pure (true, st)
  else
    let st ← execStmt env st (.updateTopic topic topic_id)
    pure (true, st)

/-- DbDriver.commit as seen from the publish pipeline: False when no
connection is open; raises when the backend commit raises; otherwise
moves the pending statements to the committed log and returns True. -/
def commitPub (env : PubEnv) (st : PubState) :
    Except (DbErr × PubState) (Bool × PubState) :=
  if env.connectionOpen then
    if env.commitRaises then .error (.commitError, st)
    else .ok (true, { st with db := { pending := [], committed := st.db.committed ++ st.db.pending } })
  else .ok (false, st)

/-- DbDriver.rollback as seen from the publish pipeline: False (and no
state change) when no connection is open, else discard the pending
statements and return True. -/
def rollbackPub (env : PubEnv) (st : PubState) : Bool × PubState :=
  if env.connectionOpen then (true, { st with db := { st.db with pending := [] } })
  else (false, st)

end DbDriver

/-! ### SQLHistorian.publish_to_historian -/

namespace SQLHistorian

/-- Outcome of one publish_to_historian call. -/
inductive PubOutcome where
  | handled (published : Nat)
  | commitFalseRollback (published : Nat)
  | noneToPublish
  | raised (e : DbErr)
  deriving DecidableEq, Repr

/-- Per-record topic resolution of publish_to_historian: look the topic
up by lowercase key; insert it (caching its id and name) when unknown;
update the topic row (and the cached name) when the display name
changed, combined with metadata when the metadata changed too.  Returns
the topic id, the update_topic_meta flag, and the new state. -/
def topicPhase (env : PubEnv) (st : PubState) (x : Record) :
    Except (DbErr × PubState) (Nat × Bool × PubState) := do
  let lowercase_name := pyLower x.topic
  match alook st.cache.topic_id_map lowercase_name with
  | none => do
    let (tid, st) ← DbDriver.insert_topic env st x.topic (some x.meta)
    let st := { st with
      cache := { st.cache with
        topic_name_map := aset st.cache.topic_name_map lowercase_name x.topic,
        topic_id_map := aset st.cache.topic_id_map lowercase_name tid } }
    pure (tid, false, st)
  | some tid =>
    if alook st.cache.topic_name_map lowercase_name ≠ some x.topic then
      let old_meta := (alook st.cache.topic_meta tid).getD []
      if old_meta ≠ x.meta then do
        let (_, st) ← DbDriver.update_topic env st x.topic tid (some x.meta)
        let st := { st with
          cache := { st.cache with
            topic_name_map := aset st.cache.topic_name_map lowercase_name x.topic } }
        pure (tid, false, st)
      else do
        let (_, st) ← DbDriver.update_topic env st x.topic tid none
        let st := { st with
          cache := { st.cache with
            topic_name_map := aset st.cache.topic_name_map lowercase_name x.topic } }
        pure (tid, true, st)
    else
      pure (tid, true, st)

/-- Per-record metadata phase of publish_to_historian: when the metadata
changed, write it via the bulk metadata insert when topics and metadata
are in separate tables, or via a metadata-only update when co-located
and it was not already persisted by the topic phase; either way update
the cached snapshot. -/
def metaPhase (env : PubEnv) (st : PubState) (topic_id : Nat)
    (old_meta meta : MetaMap) (update_topic_meta : Bool) :
    Except (DbErr × PubState) PubState := do
  if old_meta ≠ meta then
    let st ←
      if env.colocated = false then do
        let (_, st) ← DbDriver.insert_meta env st topic_id meta
        pure st
      else if update_topic_meta then do
        let (_, st) ← DbDriver.update_meta env st topic_id meta
        pure st
      else pure st
    pure { st with
      cache := { st.cache with topic_meta := aset st.cache.topic_meta topic_id meta } }
  else
    pure st

/-- Processing of one record of the batch, in source order: resolve the
topic, write metadata when needed, insert the data row; returns the
value of insert_data (counted into the published total). -/
def publishOne (env : PubEnv) (st : PubState) (x : Record) :
    Except (DbErr × PubState) (Bool × PubState) := do
  let lowercase_name := pyLower x.topic
  let topic_id0 := alook st.cache.topic_id_map lowercase_name
  let old_meta := (topic_id0.bind (alook st.cache.topic_meta)).getD []
  let (topic_id, update_topic_meta, st) ← topicPhase env st x
  let st ← metaPhase env st topic_id old_meta x.meta update_topic_meta
  DbDriver.insert_data env st x.ts topic_id x.value

/-- The record loop of publish_to_historian, accumulating the published
count. -/
def publishLoop (env : PubEnv) (st : PubState) :
    List Record → Nat → Except (DbErr × PubState) (Nat × PubState)
  | [], published => .ok (published, st)
  | x :: rest, published => do
    let (ok, st') ← publishOne env st x
    publishLoop env st' rest (if ok then published + 1 else published)

/-- SQLHistorian.publish_to_historian: run the batch; when at least one
record was published, commit (on a False commit, warn and roll back);
when nothing was published, only warn; any exception triggers a rollback
and is re-raised. -/
def publish_to_historian (env : PubEnv) (st : PubState) (to_publish_list : List Record) :
    PubOutcome × PubState :=
  match publishLoop env st to_publish_list 0 with
  | .ok (published, st') =>
    if published ≠ 0 then
      match DbDriver.commitPub env st' with
      | .ok (true, st'') => (.handled published, st'')
      | .ok (false, st'') => (.commitFalseRollback published, (DbDriver.rollbackPub env st'').2)
      | .error (e, st'') => (.raised e, (DbDriver.rollbackPub env st'').2)
    else
      (.noneToPublish, st')
  | .error (e, st') => (.raised e, (DbDriver.rollbackPub env st').2)

end SQLHistorian

/-! ### DbDriver connection, cursor, commit and rollback (basedb.py) -/

/-- How the backend connection behaves when asked for a cursor or a
commit: closed mirrors the closed attribute checked by cursor();
cursorOk is whether conn.cursor() succeeds; commitBehavior is what
conn.commit() does. -/
inductive CommitBehavior where
  | ok
  | raise (isOperationalError : Bool) (msg : String)
  deriving DecidableEq, Repr

/-- A physical backend connection. -/
structure BConn where
  closed : Bool
  cursorOk : Bool
  commitBehavior : CommitBehavior
  deriving DecidableEq, Repr

/-- The private state of a DbDriver: its one physical connection. -/
structure DriverState where
  connection : Option BConn
  deriving DecidableEq, Repr

/-- Environment of a cursor acquisition: what the supplied connection
factory does when called (raise, return None, or return a connection). -/
structure CursorEnv where
  connectResult : Except String (Option BConn)

/-- Result of DbDriver.cursor: a cursor from the existing or a freshly
established connection, a ConnectionError wrapping the factory failure,
or an exception from the new connection's cursor() propagating as-is. -/
inductive CursorOutcome where
  | gotCursor (fromNewConnection : Bool) (s : DriverState)
  | connectionError (cause : String) (s : DriverState)
  | cursorErrorOnNew (s : DriverState)
  deriving Repr

namespace DbDriver

/-- The reconnect path of DbDriver.cursor: the stale connection has
already been discarded; establish a new one via the factory and take a
cursor from it.  A factory exception is wrapped in ConnectionError; a
None result raises ConnectionError with a fixed message; an exception
from the new connection's cursor() goes to the caller unchanged. -/
def cursorReconnect (env : CursorEnv) (s : DriverState) : CursorOutcome :=
  match env.connectResult with
  | .error e => .connectionError e s
  | .ok none => .connectionError "Unknown error. Could not connect to database" s
  | .ok (some c) =>
    if c.cursorOk then .gotCursor true { connection := some c }
    else .cursorErrorOnNew { connection := some c }

/-- DbDriver.cursor: take a cursor from the live connection when one
exists; when cursor creation fails, or no (open) connection exists,
discard the connection and reconnect. -/
def cursor (env : CursorEnv) (s : DriverState) : CursorOutcome :=
  match s.connection with
  | some c =>
    if c.closed = false then
      if c.cursorOk then .gotCursor false s
      else cursorReconnect env { connection := none }
    else cursorReconnect env { connection := none }
  | none => cursorReconnect env { connection := none }

/-- True when cursor() must go through the reconnect path: no
connection, a closed connection, or a connection whose cursor() raises. -/
def needsReconnect (s : DriverState) : Bool :=
  match s.connection with
  | none => true
  | some c => c.closed || !c.cursorOk

/-- Whether the first list is an initial segment of the second. -/
def leadsWith {α : Type} [DecidableEq α] : List α → List α → Bool
  | [], _ => true
  | _ :: _, [] => false
  | a :: as, b :: bs => a = b && leadsWith as bs

/-- Whether the first list occurs contiguously inside the second
(Python substring containment). -/
def occursIn {α : Type} [DecidableEq α] (pat : List α) : List α → Bool
  | [] => leadsWith pat []
  | b :: rest => leadsWith pat (b :: rest) || occursIn pat rest

/-- Whether the commit error message reports the store as locked, which
triggers the remediation-guidance log line. -/
def lockedGuidance (msg : String) : Bool :=
  occursIn "database is locked".data msg.data

/-- Result of DbDriver.commit: a returned boolean, or a re-raised
backend exception together with whether guidance was logged first. -/
inductive CommitResult where
  | ret (b : Bool) (s : DriverState)
  | raised (msg : String) (guidanceLogged : Bool) (s : DriverState)
  deriving DecidableEq, Repr

/-- DbDriver.commit: warn and return False when no connection is open;
otherwise delegate to the backend commit, logging remediation guidance
before re-raising when an OperationalError reports the database as
locked. -/
def commit (s : DriverState) : CommitResult :=
  match s.connection with
  | some c =>
    match c.commitBehavior with
    | .ok => .ret true s
    | .raise isOp msg => .raised msg (isOp && lockedGuidance msg) s
  | none => .ret false s

/-- DbDriver.rollback: warn and return False when no connection is
open, otherwise delegate to the backend rollback and return True. -/
def rollback (s : DriverState) : Bool × DriverState :=
  match s.connection with
  | some _ => (true, s)
  | none => (false, s)

end DbDriver

/-! ### SQLHistorian.query_historian -/

namespace SQLHistorian

/-- The topic argument of query_historian: a single name or a list. -/
inductive TopicArg where
  | single (t : String)
  | many (ts : List String)
  deriving DecidableEq, Repr

/-- The topics_list built from the topic argument. -/
def topicsOf : TopicArg → List String
  | .single t => [t]
  | .many ts => ts

/-- The value returned by query_historian: empty; the single-topic
envelope with a values list and a metadata mapping; the multi-topic
envelope with a name-to-values mapping and a metadata mapping; or (never
produced by this code, but the shape the specification describes for
multi-topic queries) a bare name-to-values mapping with no metadata
entry at all. -/
inductive QueryResult where
  | empty
  | single (values : List (Nat × Int)) (metadata : MetaMap)
  | multi (values : List (String × List (Nat × Int))) (metadata : MetaMap)
  | bare (values : List (String × List (Nat × Int)))
  deriving DecidableEq, Repr

/-- Whether the result carries a metadata entry. -/
def QueryResult.hasMetadataEntry : QueryResult → Bool
  | .single _ _ => true
  | .multi _ _ => true
  | _ => false

/-- Environment of a query: the backend range query (basedb query) and
the backend aggregate topic map used for the one cache refresh. -/
structure QueryEnv where
  dbQuery : List Nat → List (Nat × String) → List (String × List (Nat × Int))
  agg_map_db : List ((String × String × String) × Nat)

/-- Python truthiness of the optional agg_type string. -/
def truthyStr (s : Option String) : Bool := s.getD "" != ""

/-- Python truthiness of a topic id (if topic_id: — 0 is falsy). -/
def idTruthy : Option Nat → Option Nat
  | some 0 => none
  | o => o

/-- Accumulator of the topic-resolution loop of query_historian. -/
structure ResolveAcc where
  topic_ids : List Nat
  id_name_map : List (Nat × String)
  cache : Cache
  warned : List String
  deriving Repr

/-- The id lookup of one resolution-loop iteration: the raw topic map
for a plain query, or the aggregate map (refreshed from the backend once
on a miss) when an aggregation is requested; returns the id found and
the cache after any refresh. -/
def resolveLookup (env : QueryEnv) (cache : Cache) (aggType : Option String)
    (aggPeriod : String) (topic_lower : String) : Option Nat × Cache :=
  if truthyStr aggType then
    let aggL := pyLower (aggType.getD "")
    match alook cache.agg_topic_id_map (topic_lower, aggL, aggPeriod) with
    | some tid => (some tid, cache)
    | none =>
      let cache' := { cache with
        agg_topic_id_map := aupdate cache.agg_topic_id_map env.agg_map_db }
      (alook cache'.agg_topic_id_map (topic_lower, aggL, aggPeriod), cache')
  else (alook cache.topic_id_map topic_lower, cache)

/-- One iteration of the resolution loop: resolve the lowercase name,
collect the id, or log a warning and exclude the topic. -/
def resolveStep (env : QueryEnv) (aggType : Option String) (aggPeriod : String)
    (acc : ResolveAcc) (topic : String) : ResolveAcc :=
  let topic_lower := pyLower topic
  let (topic_id, cache) := resolveLookup env acc.cache aggType aggPeriod topic_lower
  match idTruthy topic_id with
  | some tid =>
    { acc with
      topic_ids := acc.topic_ids ++ [tid],
      id_name_map := aset acc.id_name_map tid topic,
      cache := cache }
  | none => { acc with warned := acc.warned ++ [topic], cache := cache }

/-- The whole resolution loop over topics_list. -/
def resolveTopics (env : QueryEnv) (cache : Cache) (aggType : Option String)
    (aggPeriod : String) (topics_list : List String) : ResolveAcc :=
  topics_list.foldl (resolveStep env aggType aggPeriod) ⟨[], [], cache, []⟩

/-- Output of query_historian: the results value, the cache after any
aggregate-map refresh, whether the backend range query was invoked, and
the names warned about and excluded. -/
structure QHOut where
  result : QueryResult
  cache : Cache
  dbQueried : Bool
  warned : List String
  deriving Repr

/-- SQLHistorian.query_historian: resolve the requested names to ids;
return empty immediately when none resolve; otherwise run the backend
range query and assemble the results, unwrapping single-topic results
and attaching metadata from the resolved meta topic id. -/
def query_historian (env : QueryEnv) (cache : Cache) (topic : TopicArg)
    (aggType : Option String) (aggPeriod : String) : QHOut :=
  let topics_list := topicsOf topic
  let multi_topic_query := topics_list.length > 1
  let acc := resolveTopics env cache aggType aggPeriod topics_list
  if acc.topic_ids = [] then
    ⟨.empty, acc.cache, false, acc.warned⟩
  else
    let values := env.dbQuery acc.topic_ids acc.id_name_map
    let result :=
      if values.length > 0 then
        if multi_topic_query = false then
          let vlist := (values.head?.map Prod.snd).getD []
          let meta_tid : Option Nat :=
            if truthyStr aggType then
              alook acc.cache.topic_id_map (pyLower ((topics_list.getLast?).getD ""))
            else
              acc.topic_ids.head?
          if vlist ≠ [] then
            QueryResult.single vlist ((meta_tid.bind (alook acc.cache.topic_meta)).getD [])
          else
            QueryResult.empty
        else
          QueryResult.multi values
            (((none : Option Nat).bind (alook acc.cache.topic_meta)).getD [])
      else
        QueryResult.empty
    ⟨result, acc.cache, true, acc.warned⟩

end SQLHistorian

/-! ### Derived forms used to state lemmas about the publish pipeline -/

/-- The statement DbDriver.insert_topic executes for the given inputs. -/
def insertTopicStmt (env : PubEnv) (topic : String) (meta : MetaMap) : Stmt :=
  if env.colocated = true ∧ topic ≠ "" ∧ meta ≠ [] then .insertTopicAndMeta topic meta
  else .insertTopic topic

/-- The statement DbDriver.update_topic executes for the given inputs. -/
def updateTopicStmt (env : PubEnv) (topic : String) (meta : Option MetaMap) (tid : Nat) : Stmt :=
  if env.colocated = true ∧ topic ≠ "" ∧ meta.getD [] ≠ [] then
    .updateTopicAndMeta topic (meta.getD []) tid
  else .updateTopic topic tid

/-- The topic id a record resolves to: the cached id when the key is
known, else the id the topic insert will assign. -/
def resolvedId (st : PubState) (x : Record) : Nat :=
  match alook st.cache.topic_id_map (pyLower x.topic) with
  | some tid => tid
  | none => st.nextId

namespace SQLHistorian

/-- The state publishOne produces when no statement raises, written as a
pure function (characterized against publishOne by publishOne_eq). -/
def publishOneState (env : PubEnv) (st : PubState) (x : Record) : PubState :=
  let key := pyLower x.topic
  let tidOpt := alook st.cache.topic_id_map key
  let old_meta := (tidOpt.bind (alook st.cache.topic_meta)).getD []
  let r :=
    match tidOpt with
    | none =>
      (st.nextId, false,
        { pushStmt st (insertTopicStmt env x.topic x.meta) with
          nextId := st.nextId + 1,
          cache := { st.cache with
            topic_name_map := aset st.cache.topic_name_map key x.topic,
            topic_id_map := aset st.cache.topic_id_map key st.nextId } })
    | some tid =>
      if alook st.cache.topic_name_map key = some x.topic then (tid, true, st)
      else
        (tid, (if old_meta = x.meta then true else false),
          { pushStmt st (updateTopicStmt env x.topic
              (if old_meta = x.meta then none else some x.meta) tid) with
            cache := { st.cache with
              topic_name_map := aset st.cache.topic_name_map key x.topic } })
  let tid := r.1
  let flag := r.2.1
  let st₁ := r.2.2
  let st₂ :=
    if old_meta = x.meta then st₁
    else
      let stw :=
        if env.colocated = false then pushStmt st₁ (.insertMeta tid x.meta)
        else if flag = true then pushStmt st₁ (.updateMeta x.meta tid)
        else st₁
      { stw with cache := { stw.cache with topic_meta := aset stw.cache.topic_meta tid x.meta } }
  pushStmt st₂ (.insertData x.ts tid x.value)

end SQLHistorian

/-! ### Lemmas about the publish pipeline -/

theorem ebind_ok {ε α β : Type} (a : α) (f : α → Except ε β) :
    (Except.ok a >>= f) = f a := rfl

theorem ebind_err {ε α β : Type} (e : ε) (f : α → Except ε β) :
    ((Except.error e : Except ε α) >>= f) = Except.error e := rfl

theorem execStmt_ok {env : PubEnv} (st : PubState) (q : Stmt) (hf : env.failAt = none) :
    execStmt env st q = .ok (pushStmt st q) := by
  simp [execStmt, hf]

/-- A pipeline step result whose state (also at a raise point) has the
given committed log. -/
def keepsC {α : Type} (c : List Stmt) : Except (DbErr × PubState) (α × PubState) → Prop
  | .ok (_, st) => st.db.committed = c
  | .error (_, st) => st.db.committed = c

/-- Same, for a step returning only a state. -/
def keepsC1 (c : List Stmt) : Except (DbErr × PubState) PubState → Prop
  | .ok st => st.db.committed = c
  | .error (_, st) => st.db.committed = c

/-- Same, for a step returning two values and a state. -/
def keepsC3 {α β : Type} (c : List Stmt) :
    Except (DbErr × PubState) (α × β × PubState) → Prop
  | .ok (_, _, st) => st.db.committed = c
  | .error (_, st) => st.db.committed = c

theorem execStmt_keeps (env : PubEnv) (st : PubState) (q : Stmt) :
    keepsC1 st.db.committed (execStmt env st q) := by
  unfold execStmt
  split <;> simp [keepsC1, pushStmt]

/-- Executing one statement and then purely transforming the state
preserves the committed log, as long as the pure transformation does. -/
theorem exec_then_keeps {α : Type} (env : PubEnv) (st : PubState) (q : Stmt)
    (f : PubState → α × PubState)
    (hpres : ∀ s : PubState, ((f s).2).db.committed = s.db.committed) :
    keepsC st.db.committed ((execStmt env st q) >>= fun s => pure (f s)) := by
  have h := execStmt_keeps env st q
  cases he : execStmt env st q with
  | error e =>
    rw [he] at h
    obtain ⟨e1, s⟩ := e
    simpa [keepsC, keepsC1, bind, Except.bind] using h
  | ok s =>
    rw [he] at h
    simp only [keepsC1] at h
    simp only [bind, Except.bind, pure, Except.pure, keepsC]
    rw [hpres s, h]

theorem insert_meta_keeps (env : PubEnv) (st : PubState) (tid : Nat) (m : MetaMap) :
    keepsC st.db.committed (DbDriver.insert_meta env st tid m) :=
  exec_then_keeps env st _ (fun s => (true, s)) (fun _ => rfl)

theorem update_meta_keeps (env : PubEnv) (st : PubState) (tid : Nat) (m : MetaMap) :
    keepsC st.db.committed (DbDriver.update_meta env st tid m) :=
  exec_then_keeps env st _ (fun s => (true, s)) (fun _ => rfl)

theorem insert_data_keeps (env : PubEnv) (st : PubState) (ts tid : Nat) (v : Int) :
    keepsC st.db.committed (DbDriver.insert_data env st ts tid v) :=
  exec_then_keeps env st _ (fun s => (true, s)) (fun _ => rfl)

theorem insert_topic_keeps (env : PubEnv) (st : PubState) (topic : String) (m : Option MetaMap) :
    keepsC st.db.committed (DbDriver.insert_topic env st topic m) :=
  exec_then_keeps env st _ (fun s => (s.nextId, { s with nextId := s.nextId + 1 })) (fun _ => rfl)

theorem update_topic_keeps (env : PubEnv) (st : PubState) (topic : String) (tid : Nat)
    (m : Option MetaMap) :
    keepsC st.db.committed (DbDriver.update_topic env st topic tid m) := by
  unfold DbDriver.update_topic
  split
  · exact exec_then_keeps env st _ (fun s => (true, s)) (fun _ => rfl)
  · exact exec_then_keeps env st _ (fun s => (true, s)) (fun _ => rfl)

namespace SQLHistorian

theorem topicPhase_keeps (env : PubEnv) (st : PubState) (x : Record) :
    keepsC3 st.db.committed (topicPhase env st x) := by
  unfold topicPhase
  cases h : alook st.cache.topic_id_map (pyLower x.topic) with
  | none =>
    have hi := insert_topic_keeps env st x.topic (some x.meta)
    cases hit : DbDriver.insert_topic env st x.topic (some x.meta) with
    | error e =>
      rw [hit] at hi
      obtain ⟨e1, s⟩ := e
      simpa [h, keepsC3, keepsC, bind, Except.bind] using hi
    | ok v =>
      obtain ⟨tid, st'⟩ := v
      rw [hit] at hi
      simp only [keepsC] at hi
      simp [h, keepsC3, bind, Except.bind, pure, Except.pure, hi]
  | some tid =>
    by_cases hn : alook st.cache.topic_name_map (pyLower x.topic) = some x.topic
    · simp [h, hn, keepsC3, pure, Except.pure]
    · have huk : ∀ (m : Option MetaMap) (b : Bool),
          keepsC3 st.db.committed
            ((DbDriver.update_topic env st x.topic tid m) >>= fun p =>
              pure (tid, b,
                { p.2 with cache := { p.2.cache with
                    topic_name_map := aset p.2.cache.topic_name_map (pyLower x.topic) x.topic } })) := by
        intro m b
        have hu := update_topic_keeps env st x.topic tid m
        cases hut : DbDriver.update_topic env st x.topic tid m with
        | error e =>
          rw [hut] at hu
          obtain ⟨e1, s⟩ := e
          simpa [keepsC3, keepsC, bind, Except.bind] using hu
        | ok v =>
          obtain ⟨bb, st'⟩ := v
          rw [hut] at hu
          simp only [keepsC] at hu
          simp [keepsC3, bind, Except.bind, pure, Except.pure, hu]
      by_cases hm : (alook st.cache.topic_meta tid).getD [] = x.meta
      · simpa [h, hn, hm, bind, Except.bind, pure, Except.pure] using huk none true
      · simpa [h, hn, hm, bind, Except.bind, pure, Except.pure] using huk (some x.meta) false

theorem metaPhase_keeps (env : PubEnv) (st : PubState) (tid : Nat)
    (old_meta meta : MetaMap) (flag : Bool) :
    keepsC1 st.db.committed (metaPhase env st tid old_meta meta flag) := by
  unfold metaPhase
  by_cases he : old_meta = meta
  · simp [he, keepsC1, pure, Except.pure]
  · have hwrap : ∀ (w : Except (DbErr × PubState) (Bool × PubState)),
        keepsC st.db.committed w →
        keepsC1 st.db.committed
          (w >>= fun p => pure { p.2 with cache := { p.2.cache with
              topic_meta := aset p.2.cache.topic_meta tid meta } }) := by
      intro w hw
      cases w with
      | error e =>
        obtain ⟨e1, s⟩ := e
        simpa [keepsC1, keepsC, bind, Except.bind] using hw
      | ok v =>
        obtain ⟨b, st'⟩ := v
        simp only [keepsC] at hw
        simp [keepsC1, bind, Except.bind, pure, Except.pure, hw]
    by_cases hc : env.colocated = false
    · have := hwrap _ (insert_meta_keeps env st tid meta)
      simpa [he, hc, bind, Except.bind, pure, Except.pure] using this
    · by_cases hfl : flag = true
      · have := hwrap _ (update_meta_keeps env st tid meta)
        simpa [he, hc, hfl, bind, Except.bind, pure, Except.pure] using this
      · have hp : keepsC st.db.committed
            (pure (true, st) : Except (DbErr × PubState) (Bool × PubState)) := by
          simp [keepsC, pure, Except.pure]
        have h2 := hwrap _ hp
        simpa [he, hc, hfl, bind, Except.bind, pure, Except.pure] using h2

theorem publishOne_keeps (env : PubEnv) (st : PubState) (x : Record) :
    keepsC st.db.committed (publishOne env st x) := by
  unfold publishOne
  have ht := topicPhase_keeps env st x
  cases htp : topicPhase env st x with
  | error e =>
    rw [htp] at ht
    simpa [keepsC, bind, Except.bind] using ht
  | ok v =>
    obtain ⟨tid, flag, st₁⟩ := v
    rw [htp] at ht
    have h1 : st₁.db.committed = st.db.committed := ht
    have hm := metaPhase_keeps env st₁ tid
      (((alook st.cache.topic_id_map (pyLower x.topic)).bind
        (alook st.cache.topic_meta)).getD []) x.meta flag
    cases hmp : metaPhase env st₁ tid
        (((alook st.cache.topic_id_map (pyLower x.topic)).bind
          (alook st.cache.topic_meta)).getD []) x.meta flag with
    | error e =>
      rw [hmp] at hm
      simp only [bind, Except.bind, hmp, keepsC]
      simpa [keepsC1, h1] using hm
    | ok st₂ =>
      rw [hmp] at hm
      have h2 : st₂.db.committed = st.db.committed := by
        simpa [keepsC1, h1] using hm
      have hd := execStmt_keeps env st₂ (Stmt.insertData x.ts tid x.value)
      simp only [bind, Except.bind, hmp, DbDriver.insert_data]
      cases hde : execStmt env st₂ (Stmt.insertData x.ts tid x.value) with
      | error e =>
        rw [hde] at hd
        simpa [keepsC, keepsC1, h2] using hd
      | ok st₃ =>
        rw [hde] at hd
        simp only [keepsC1] at hd
        simp [keepsC, pure, Except.pure, hd, h2]

/-- A statement execution followed by returning True can only succeed
with the boolean True. -/
theorem exec_pure_true_ok (env : PubEnv) (st : PubState) (q : Stmt) (r : Bool × PubState)
    (h : ((execStmt env st q) >>= fun s => pure (true, s)
          : Except (DbErr × PubState) (Bool × PubState)) = .ok r) : r.1 = true := by
  cases he : execStmt env st q with
  | error e => rw [he] at h; simp [bind, Except.bind] at h
  | ok s =>
    rw [he] at h
    simp only [bind, Except.bind, pure, Except.pure, Except.ok.injEq] at h
    rw [← h]

theorem insert_data_ok_true (env : PubEnv) (st : PubState) (ts tid : Nat) (v : Int)
    (r : Bool × PubState) (h : DbDriver.insert_data env st ts tid v = .ok r) : r.1 = true :=
  exec_pure_true_ok env st (Stmt.insertData ts tid v) r h

theorem insert_meta_ok_true (env : PubEnv) (st : PubState) (tid : Nat) (m : MetaMap)
    (r : Bool × PubState) (h : DbDriver.insert_meta env st tid m = .ok r) : r.1 = true :=
  exec_pure_true_ok env st (Stmt.insertMeta tid m) r h

theorem update_meta_ok_true (env : PubEnv) (st : PubState) (tid : Nat) (m : MetaMap)
    (r : Bool × PubState) (h : DbDriver.update_meta env st tid m = .ok r) : r.1 = true :=
  exec_pure_true_ok env st (Stmt.updateMeta m tid) r h

theorem insert_agg_meta_ok_true (env : PubEnv) (st : PubState) (tid : Nat) (m : MetaMap)
    (r : Bool × PubState) (h : DbDriver.insert_agg_meta env st tid m = .ok r) : r.1 = true :=
  exec_pure_true_ok env st (Stmt.replaceAggMeta tid m) r h

theorem update_topic_ok_true (env : PubEnv) (st : PubState) (topic : String) (tid : Nat)
    (m : Option MetaMap) (r : Bool × PubState)
    (h : DbDriver.update_topic env st topic tid m = .ok r) : r.1 = true := by
  unfold DbDriver.update_topic at h
  split at h
  · exact exec_pure_true_ok env st _ r h
  · exact exec_pure_true_ok env st _ r h

theorem publishLoop_keeps (env : PubEnv) (batch : List Record) :
    ∀ (st : PubState) (acc : Nat), keepsC st.db.committed (publishLoop env st batch acc) := by
  induction batch with
  | nil => intro st acc; simp [publishLoop, keepsC]
  | cons x rest ih =>
    intro st acc
    unfold publishLoop
    have hp := publishOne_keeps env st x
    cases hpo : publishOne env st x with
    | error e =>
      rw [hpo] at hp
      simpa [keepsC, bind, Except.bind] using hp
    | ok v =>
      obtain ⟨b, st'⟩ := v
      rw [hpo] at hp
      have h1 : st'.db.committed = st.db.committed := hp
      have := ih st' (if b then acc + 1 else acc)
      rw [h1] at this
      simpa [bind, Except.bind] using this

theorem publishOne_ok_true (env : PubEnv) (st : PubState) (x : Record) (b : Bool)
    (st' : PubState) (h : publishOne env st x = .ok (b, st')) : b = true := by
  unfold publishOne at h
  cases htp : topicPhase env st x with
  | error e => rw [htp] at h; simp [bind, Except.bind] at h
  | ok v =>
    obtain ⟨tid, flag, st₁⟩ := v
    rw [htp] at h
    simp only [bind, Except.bind] at h
    cases hmp : metaPhase env st₁ tid
        (((alook st.cache.topic_id_map (pyLower x.topic)).bind
          (alook st.cache.topic_meta)).getD []) x.meta flag with
    | error e => rw [hmp] at h; simp at h
    | ok st₂ =>
      rw [hmp] at h
      have := insert_data_ok_true env st₂ x.ts tid x.value (b, st') h
      simpa using this

theorem publishLoop_count (env : PubEnv) (batch : List Record) :
    ∀ (st : PubState) (acc p : Nat) (st' : PubState),
      publishLoop env st batch acc = .ok (p, st') → p = acc + batch.length := by
  induction batch with
  | nil =>
    intro st acc p st' h
    simp only [publishLoop, Except.ok.injEq, Prod.mk.injEq] at h
    simp [← h.1]
  | cons x rest ih =>
    intro st acc p st' h
    unfold publishLoop at h
    cases hpo : publishOne env st x with
    | error e => rw [hpo] at h; simp [bind, Except.bind] at h
    | ok v =>
      obtain ⟨b, st₁⟩ := v
      have hb := publishOne_ok_true env st x b st₁ hpo
      subst hb
      rw [hpo] at h
      simp only [bind, Except.bind, if_pos rfl] at h
      have := ih st₁ (acc + 1) p st' h
      simp only [List.length_cons]
      omega

end SQLHistorian

/-! ### Exact behavior of the driver operations when no statement raises -/

theorem insert_topic_eq {env : PubEnv} (st : PubState) (topic : String) (m : MetaMap)
    (hf : env.failAt = none) :
    DbDriver.insert_topic env st topic (some m) =
      .ok (st.nextId, { pushStmt st (insertTopicStmt env topic m) with nextId := st.nextId + 1 }) := by
  have he : ∀ (s : PubState) (q : Stmt), execStmt env s q = .ok (pushStmt s q) :=
    fun s q => execStmt_ok s q hf
  unfold DbDriver.insert_topic insertTopicStmt
  by_cases hc : env.colocated = true ∧ topic ≠ "" ∧ m ≠ []
  · simp [hc, he, bind, Except.bind, pure, Except.pure, pushStmt]
  · simp only [Option.getD_some]
    simp [hc, he, bind, Except.bind, pure, Except.pure, pushStmt]

theorem update_topic_eq {env : PubEnv} (st : PubState) (topic : String) (tid : Nat)
    (m : Option MetaMap) (hf : env.failAt = none) :
    DbDriver.update_topic env st topic tid m =
      .ok (true, pushStmt st (updateTopicStmt env topic m tid)) := by
  have he : ∀ (s : PubState) (q : Stmt), execStmt env s q = .ok (pushStmt s q) :=
    fun s q => execStmt_ok s q hf
  unfold DbDriver.update_topic updateTopicStmt
  by_cases hc : env.colocated = true ∧ topic ≠ "" ∧ m.getD [] ≠ []
  · simp [hc, he, bind, Except.bind, pure, Except.pure]
  · simp [hc, he, bind, Except.bind, pure, Except.pure]

theorem insert_meta_eq {env : PubEnv} (st : PubState) (tid : Nat) (m : MetaMap)
    (hf : env.failAt = none) :
    DbDriver.insert_meta env st tid m = .ok (true, pushStmt st (.insertMeta tid m)) := by
  unfold DbDriver.insert_meta
  rw [execStmt_ok st _ hf]
  rfl

theorem update_meta_eq {env : PubEnv} (st : PubState) (tid : Nat) (m : MetaMap)
    (hf : env.failAt = none) :
    DbDriver.update_meta env st tid m = .ok (true, pushStmt st (.updateMeta m tid)) := by
  unfold DbDriver.update_meta
  rw [execStmt_ok st _ hf]
  rfl

theorem insert_data_eq {env : PubEnv} (st : PubState) (ts tid : Nat) (v : Int)
    (hf : env.failAt = none) :
    DbDriver.insert_data env st ts tid v = .ok (true, pushStmt st (.insertData ts tid v)) := by
  unfold DbDriver.insert_data
  rw [execStmt_ok st _ hf]
  rfl

namespace SQLHistorian

theorem metaPhase_eq (env : PubEnv) (st : PubState) (tid : Nat) (old_meta meta : MetaMap)
    (flag : Bool) (hf : env.failAt = none) :
    metaPhase env st tid old_meta meta flag = .ok (
      if old_meta = meta then st
      else
        let stw :=
          if env.colocated = false then pushStmt st (.insertMeta tid meta)
          else if flag = true then pushStmt st (.updateMeta meta tid)
          else st
        { stw with cache := { stw.cache with topic_meta := aset stw.cache.topic_meta tid meta } }) := by
  unfold metaPhase
  by_cases he : old_meta = meta
  · simp [he, pure, Except.pure]
  · by_cases hc : env.colocated = false
    · rw [if_neg he]
      simp [he, hc, insert_meta_eq st tid meta hf, bind, Except.bind, pure, Except.pure]
    · by_cases hfl : flag = true
      · rw [if_neg he]
        simp [he, hc, hfl, update_meta_eq st tid meta hf, bind, Except.bind, pure, Except.pure]
      · rw [if_neg he]
        simp [he, hc, hfl, bind, Except.bind, pure, Except.pure]

theorem topicPhase_eq (env : PubEnv) (st : PubState) (x : Record) (hf : env.failAt = none) :
    topicPhase env st x = .ok (
      let key := pyLower x.topic
      match alook st.cache.topic_id_map key with
      | none =>
        (st.nextId, false,
          { pushStmt st (insertTopicStmt env x.topic x.meta) with
            nextId := st.nextId + 1,
            cache := { st.cache with
              topic_name_map := aset st.cache.topic_name_map key x.topic,
              topic_id_map := aset st.cache.topic_id_map key st.nextId } })
      | some tid =>
        if alook st.cache.topic_name_map key = some x.topic then (tid, true, st)
        else
          (tid, (if (alook st.cache.topic_meta tid).getD [] = x.meta then true else false),
            { pushStmt st (updateTopicStmt env x.topic
                (if (alook st.cache.topic_meta tid).getD [] = x.meta then none else some x.meta) tid) with
              cache := { st.cache with
                topic_name_map := aset st.cache.topic_name_map key x.topic } })) := by
  unfold topicPhase
  cases hid : alook st.cache.topic_id_map (pyLower x.topic) with
  | none =>
    simp [hid, insert_topic_eq st x.topic x.meta hf, bind, Except.bind, pure, Except.pure,
      pushStmt]
  | some tid =>
    by_cases hn : alook st.cache.topic_name_map (pyLower x.topic) = some x.topic
    · simp [hid, hn, pure, Except.pure]
    · by_cases hm : (alook st.cache.topic_meta tid).getD [] = x.meta
      · simp [hid, hn, hm, update_topic_eq st x.topic tid none hf,
          bind, Except.bind, pure, Except.pure, pushStmt]
      · simp [hid, hn, hm, update_topic_eq st x.topic tid (some x.meta) hf,
          bind, Except.bind, pure, Except.pure, pushStmt]

theorem publishOne_eq (env : PubEnv) (st : PubState) (x : Record) (hf : env.failAt = none) :
    publishOne env st x = .ok (true, publishOneState env st x) := by
  unfold publishOne publishOneState
  rw [topicPhase_eq env st x hf]
  cases hid : alook st.cache.topic_id_map (pyLower x.topic) with
  | none =>
    simp [hid, metaPhase_eq, insert_data_eq, hf, bind, Except.bind, pure, Except.pure,
      Option.bind]
  | some tid =>
    by_cases hn : alook st.cache.topic_name_map (pyLower x.topic) = some x.topic
    · simp [hid, hn, metaPhase_eq, insert_data_eq, hf, bind, Except.bind, pure, Except.pure,
        Option.bind]
    · by_cases hm : (alook st.cache.topic_meta tid).getD [] = x.meta
      · simp [hid, hn, hm, metaPhase_eq, insert_data_eq, hf, bind, Except.bind, pure,
          Except.pure, Option.bind]
      · simp [hid, hn, hm, metaPhase_eq, insert_data_eq, hf, bind, Except.bind, pure,
          Except.pure, Option.bind]

theorem resolvedId_known (st : PubState) (x : Record) (tid : Nat)
    (hid : alook st.cache.topic_id_map (pyLower x.topic) = some tid) :
    resolvedId st x = tid := by
  unfold resolvedId
  rw [hid]

theorem publishOneState_id (env : PubEnv) (st : PubState) (x : Record) :
    alook (publishOneState env st x).cache.topic_id_map (pyLower x.topic) =
      some (resolvedId st x) := by
  unfold publishOneState resolvedId
  cases hid : alook st.cache.topic_id_map (pyLower x.topic) with
  | none =>
    simp only [hid]
    split_ifs <;> simp [pushStmt, alook_aset_self]
  | some tid =>
    simp only [hid]
    split_ifs <;> simp [pushStmt, hid]

theorem publishOneState_idmap_known (env : PubEnv) (st : PubState) (x : Record) (tid : Nat)
    (hid : alook st.cache.topic_id_map (pyLower x.topic) = some tid) :
    (publishOneState env st x).cache.topic_id_map = st.cache.topic_id_map := by
  unfold publishOneState
  simp only [hid]
  split_ifs <;> simp [pushStmt]

theorem publishOneState_name (env : PubEnv) (st : PubState) (x : Record) :
    alook (publishOneState env st x).cache.topic_name_map (pyLower x.topic) = some x.topic := by
  unfold publishOneState
  cases hid : alook st.cache.topic_id_map (pyLower x.topic) with
  | none =>
    simp only [hid]
    split_ifs <;> simp [pushStmt, alook_aset_self]
  | some tid =>
    simp only [hid]
    split_ifs with h1 <;> simp_all [pushStmt, alook_aset_self]

theorem publishOneState_meta (env : PubEnv) (st : PubState) (x : Record)
    (hfresh : alook st.cache.topic_meta st.nextId = none) :
    (alook (publishOneState env st x).cache.topic_meta (resolvedId st x)).getD [] = x.meta := by
  unfold publishOneState resolvedId
  cases hid : alook st.cache.topic_id_map (pyLower x.topic) with
  | none =>
    simp only [hid]
    split_ifs with h1 <;> simp_all [pushStmt, alook_aset_self, hfresh]
  | some tid =>
    simp only [hid]
    split_ifs <;> simp_all [pushStmt, alook_aset_self]

theorem publishOneState_stable (env : PubEnv) (st : PubState) (x : Record) (tid : Nat)
    (hid : alook st.cache.topic_id_map (pyLower x.topic) = some tid)
    (hname : alook st.cache.topic_name_map (pyLower x.topic) = some x.topic)
    (hmeta : (alook st.cache.topic_meta tid).getD [] = x.meta) :
    publishOneState env st x = pushStmt st (.insertData x.ts tid x.value) := by
  unfold publishOneState
  simp [hid, hname, hmeta]

theorem publishOneState_committed (env : PubEnv) (st : PubState) (x : Record)
    (hf : env.failAt = none) :
    (publishOneState env st x).db.committed = st.db.committed := by
  have hk := publishOne_keeps env st x
  rw [publishOne_eq env st x hf] at hk
  exact hk

theorem publish_single_eq (env : PubEnv) (st : PubState) (x : Record)
    (hf : env.failAt = none) (hco : env.connectionOpen = true)
    (hcr : env.commitRaises = false) :
    publish_to_historian env st [x] = (.handled 1,
      { publishOneState env st x with
        db := { pending := [],
                committed := (publishOneState env st x).db.committed
                  ++ (publishOneState env st x).db.pending } }) := by
  unfold publish_to_historian
  have hl : publishLoop env st [x] 0 = .ok (1, publishOneState env st x) := by
    unfold publishLoop
    rw [publishOne_eq env st x hf]
    simp [bind, Except.bind, publishLoop]
  rw [hl]
  simp [DbDriver.commitPub, hco, hcr]

end SQLHistorian

/-! ### Concrete sample inputs used by witnesses and counterexamples -/

/-- Separate topics/metadata tables, no injected failures, open connection. -/
def pubEnvSep : PubEnv := ⟨false, none, true, false⟩

/-- Co-located topics/metadata tables, no injected failures, open connection. -/
def pubEnvCo : PubEnv := ⟨true, none, true, false⟩

/-- Separate tables, the sixth statement execution raises. -/
def failEnv : PubEnv := ⟨false, some 5, true, false⟩

/-- Fresh historian state: empty cache, empty log, ids start at 1. -/
def emptyState : PubState := ⟨⟨[], [], [], []⟩, ⟨[], []⟩, 1, 0⟩

/-- A record for a previously unseen topic with nonempty metadata. -/
def recA : Record := ⟨100, "a", 5, [("units", "C")]⟩

/-- Two records whose topics differ only in case. -/
def recUpper : Record := ⟨1, "Device/Temp", 2, []⟩

/-- Lowercase twin of recUpper. -/
def recLower : Record := ⟨2, "device/temp", 3, []⟩

/-- Five records with fresh topics and empty metadata: each produces a
topic insert and a data insert, so the third data insert is the sixth
statement execution. -/
def failBatch : List Record :=
  [⟨1, "a", 1, []⟩, ⟨2, "b", 2, []⟩, ⟨3, "c", 3, []⟩, ⟨4, "d", 4, []⟩, ⟨5, "e", 5, []⟩]

/-- The state at the raise point when failEnv processes failBatch. -/
def failErrState : PubState :=
  ⟨⟨[("a", 1), ("b", 2), ("c", 3)], [("a", "a"), ("b", "b"), ("c", "c")], [], []⟩,
   ⟨[.insertTopic "a", .insertData 1 1 1, .insertTopic "b", .insertData 2 2 2, .insertTopic "c"],
    []⟩, 4, 6⟩

/-- The state after the loop of publishing recA against emptyState with
separate tables, before the commit. -/
def okState : PubState :=
  ⟨⟨[("a", 1)], [("a", "a")], [(1, [("units", "C")])], []⟩,
   ⟨[.insertTopic "a", .insertMeta 1 [("units", "C")], .insertData 100 1 5], []⟩, 2, 3⟩

/-! ### Claims about the publish pipeline -/

namespace SQLHistorian

/-- Claim C1: when any statement of a publish batch raises mid-batch,
publish_to_historian re-raises the error and rolls the transaction back,
so the committed log is exactly what it was before the batch (zero rows
of the batch are committed) and, when a connection is open, the pending
transaction is discarded. -/
theorem publish_midbatch_rolls_back (env : PubEnv) (st : PubState) (batch : List Record)
    (e : DbErr) (stE : PubState)
    (h : publishLoop env st batch 0 = .error (e, stE)) :
    (publish_to_historian env st batch).1 = .raised e ∧
    (publish_to_historian env st batch).2.db.committed = st.db.committed ∧
    (env.connectionOpen = true → (publish_to_historian env st batch).2.db.pending = []) := by
  have hk := publishLoop_keeps env batch st 0
  rw [h] at hk
  have hc : stE.db.committed = st.db.committed := hk
  unfold publish_to_historian
  rw [h]
  unfold DbDriver.rollbackPub
  by_cases ho : env.connectionOpen = true
  · simp [ho, hc]
  · simp [ho, hc]

/-- Witness for C1: the data insert of the third of five records raises;
the whole batch is rolled back (nothing committed, pending discarded)
and the error is re-raised. -/
theorem publish_midbatch_rolls_back_witness :
    (publish_to_historian failEnv emptyState failBatch).1 = .raised .stmtFailed ∧
    (publish_to_historian failEnv emptyState failBatch).2.db.committed = [] ∧
    (publish_to_historian failEnv emptyState failBatch).2.db.pending = [] := by
  have h := publish_midbatch_rolls_back failEnv emptyState failBatch .stmtFailed
    failErrState (by rfl)
  exact ⟨h.1, h.2.1, h.2.2 rfl⟩

/-- Claim C3: after the record loop completes with published records,
the pipeline commits (moving the whole pending batch to the committed
log); a commit that raises triggers a rollback and the raised outcome; a
commit that returns False (no open connection) triggers a rollback and a
warning outcome; in all failure cases the committed log stays what it
was before the batch (no partial commit); with zero published records
the transaction state is left untouched. -/
theorem publish_commit_phase (env : PubEnv) (st : PubState) (batch : List Record)
    (p : Nat) (st' : PubState)
    (h : publishLoop env st batch 0 = .ok (p, st')) :
    (p ≠ 0 → env.connectionOpen = true → env.commitRaises = false →
      publish_to_historian env st batch = (.handled p,
        { st' with db := { pending := [], committed := st'.db.committed ++ st'.db.pending } })) ∧
    (p ≠ 0 → env.connectionOpen = true → env.commitRaises = true →
      (publish_to_historian env st batch).1 = .raised .commitError ∧
      (publish_to_historian env st batch).2.db.committed = st.db.committed ∧
      (publish_to_historian env st batch).2.db.pending = []) ∧
    (p ≠ 0 → env.connectionOpen = false →
      (publish_to_historian env st batch).1 = .commitFalseRollback p ∧
      (publish_to_historian env st batch).2 = st' ∧
      st'.db.committed = st.db.committed) ∧
    (p = 0 → publish_to_historian env st batch = (.noneToPublish, st')) := by
  have hk := publishLoop_keeps env batch st 0
  rw [h] at hk
  have hc : st'.db.committed = st.db.committed := hk
  refine ⟨?_, ?_, ?_, ?_⟩
  · intro hp ho hr
    unfold publish_to_historian
    rw [h]
    simp [hp, DbDriver.commitPub, ho, hr]
  · intro hp ho hr
    unfold publish_to_historian
    rw [h]
    simp [hp, DbDriver.commitPub, DbDriver.rollbackPub, ho, hr, hc]
  · intro hp ho
    unfold publish_to_historian
    rw [h]
    simp [hp, DbDriver.commitPub, DbDriver.rollbackPub, ho, hc]
  · intro hp
    unfold publish_to_historian
    rw [h]
    simp [hp]

/-- Witness for C3: a one-record batch on a fresh store commits, moving
all three pending statements into the committed log. -/
theorem publish_commit_phase_witness :
    publish_to_historian pubEnvSep emptyState [recA] = (.handled 1,
      { okState with
        db := { pending := [],
                committed := okState.db.committed ++ okState.db.pending } }) :=
  (publish_commit_phase pubEnvSep emptyState [recA] 1 okState (by rfl)).1
    (by decide) rfl rfl

/-- Claim C10: the driver operations insert_data, insert_meta,
update_meta, update_topic and insert_agg_meta return True whenever they
complete without raising (never False), and consequently a publish loop
that completes without an exception counts every record, so the
published count equals the batch length. -/
theorem driver_ops_return_true (env : PubEnv) (st : PubState) (batch : List Record)
    (p : Nat) (st' : PubState) :
    (∀ (ts tid : Nat) (v : Int) (r : Bool × PubState),
        DbDriver.insert_data env st ts tid v = .ok r → r.1 = true) ∧
    (∀ (tid : Nat) (m : MetaMap) (r : Bool × PubState),
        DbDriver.insert_meta env st tid m = .ok r → r.1 = true) ∧
    (∀ (tid : Nat) (m : MetaMap) (r : Bool × PubState),
        DbDriver.update_meta env st tid m = .ok r → r.1 = true) ∧
    (∀ (topic : String) (tid : Nat) (m : Option MetaMap) (r : Bool × PubState),
        DbDriver.update_topic env st topic tid m = .ok r → r.1 = true) ∧
    (∀ (tid : Nat) (m : MetaMap) (r : Bool × PubState),
        DbDriver.insert_agg_meta env st tid m = .ok r → r.1 = true) ∧
    (publishLoop env st batch 0 = .ok (p, st') → p = batch.length) := by
  refine ⟨?_, ?_, ?_, ?_, ?_, ?_⟩
  · intro ts tid v r hr; exact insert_data_ok_true env st ts tid v r hr
  · intro tid m r hr; exact insert_meta_ok_true env st tid m r hr
  · intro tid m r hr; exact update_meta_ok_true env st tid m r hr
  · intro topic tid m r hr; exact update_topic_ok_true env st topic tid m r hr
  · intro tid m r hr; exact insert_agg_meta_ok_true env st tid m r hr
  · intro hr
    have := publishLoop_count env batch st 0 p st' hr
    simpa using this

/-- Witness for C10: the one-record batch is fully counted, and a
concrete insert_data call returns True. -/
theorem driver_ops_return_true_witness :
    ((1 : Nat) = [recA].length) ∧
    ((true, pushStmt emptyState (Stmt.insertData 7 1 3)).1 = true) :=
  ⟨(driver_ops_return_true pubEnvSep emptyState [recA] 1 okState).2.2.2.2.2 (by rfl),
   (driver_ops_return_true pubEnvSep emptyState [recA] 1 okState).1 7 1 3
     (true, pushStmt emptyState (Stmt.insertData 7 1 3)) (by rfl)⟩

/-- Claim C6 (idempotence): publishing the same record (same topic
casing, same metadata) twice in two successful publish calls issues no
metadata write on the second publish: the second call commits exactly
one data-insert statement and nothing else. -/
theorem republish_unchanged_no_meta_write (env : PubEnv) (st : PubState) (x : Record)
    (hf : env.failAt = none) (hco : env.connectionOpen = true)
    (hcr : env.commitRaises = false)
    (hfresh : alook st.cache.topic_meta st.nextId = none) :
    (publish_to_historian env (publish_to_historian env st [x]).2 [x]).1 = .handled 1 ∧
    (publish_to_historian env (publish_to_historian env st [x]).2 [x]).2.db.committed =
      (publish_to_historian env st [x]).2.db.committed
        ++ [Stmt.insertData x.ts (resolvedId st x) x.value] ∧
    (publish_to_historian env (publish_to_historian env st [x]).2 [x]).2.db.pending = [] ∧
    Stmt.isMetaWrite (Stmt.insertData x.ts (resolvedId st x) x.value) = false := by
  have h1 := publish_single_eq env st x hf hco hcr
  have hcache : ((publish_to_historian env st [x]).2).cache = (publishOneState env st x).cache := by
    rw [h1]
  have hpend : ((publish_to_historian env st [x]).2).db.pending = [] := by rw [h1]
  have hid1 : alook ((publish_to_historian env st [x]).2).cache.topic_id_map (pyLower x.topic) =
      some (resolvedId st x) := by
    rw [hcache]; exact publishOneState_id env st x
  have hname1 : alook ((publish_to_historian env st [x]).2).cache.topic_name_map (pyLower x.topic) =
      some x.topic := by
    rw [hcache]; exact publishOneState_name env st x
  have hmeta1 : (alook ((publish_to_historian env st [x]).2).cache.topic_meta
      (resolvedId st x)).getD [] = x.meta := by
    rw [hcache]; exact publishOneState_meta env st x hfresh
  have hstable := publishOneState_stable env ((publish_to_historian env st [x]).2) x
    (resolvedId st x) hid1 hname1 hmeta1
  have h2 := publish_single_eq env ((publish_to_historian env st [x]).2) x hf hco hcr
  rw [hstable] at h2
  refine ⟨?_, ?_, ?_, rfl⟩
  · rw [h2]
  · rw [h2]
    simp [pushStmt, hpend]
  · rw [h2]

/-- Witness for C6: republishing recA issues only the data insert. -/
theorem republish_unchanged_no_meta_write_witness :
    (publish_to_historian pubEnvSep (publish_to_historian pubEnvSep emptyState [recA]).2 [recA]).1
      = .handled 1 ∧
    (publish_to_historian pubEnvSep (publish_to_historian pubEnvSep emptyState [recA]).2
        [recA]).2.db.committed =
      (publish_to_historian pubEnvSep emptyState [recA]).2.db.committed
        ++ [Stmt.insertData 100 1 5] ∧
    (publish_to_historian pubEnvSep (publish_to_historian pubEnvSep emptyState [recA]).2
        [recA]).2.db.pending = [] ∧
    Stmt.isMetaWrite (Stmt.insertData 100 1 5) = false :=
  republish_unchanged_no_meta_write pubEnvSep emptyState recA rfl rfl rfl rfl

/-- Claim C7 (case-insensitivity): two successful single-record
publishes whose topics share a lowercase key resolve to the same topic
id; the second publish leaves the id map exactly as the first left it
(ids never change once assigned), while the cached display name tracks
the most recently published casing after each publish. -/
theorem case_insensitive_topic_ids (env : PubEnv) (st : PubState) (r₁ r₂ : Record)
    (hf : env.failAt = none) (hco : env.connectionOpen = true)
    (hcr : env.commitRaises = false)
    (hlow : pyLower r₁.topic = pyLower r₂.topic) :
    alook (publish_to_historian env st [r₁]).2.cache.topic_id_map (pyLower r₁.topic) =
      some (resolvedId st r₁) ∧
    alook (publish_to_historian env (publish_to_historian env st [r₁]).2
        [r₂]).2.cache.topic_id_map (pyLower r₂.topic) = some (resolvedId st r₁) ∧
    (publish_to_historian env (publish_to_historian env st [r₁]).2 [r₂]).2.cache.topic_id_map =
      (publish_to_historian env st [r₁]).2.cache.topic_id_map ∧
    alook (publish_to_historian env st [r₁]).2.cache.topic_name_map (pyLower r₁.topic) =
      some r₁.topic ∧
    alook (publish_to_historian env (publish_to_historian env st [r₁]).2
        [r₂]).2.cache.topic_name_map (pyLower r₂.topic) = some r₂.topic := by
  have h1 := publish_single_eq env st r₁ hf hco hcr
  have hcache : ((publish_to_historian env st [r₁]).2).cache = (publishOneState env st r₁).cache := by
    rw [h1]
  have hid1 : alook ((publish_to_historian env st [r₁]).2).cache.topic_id_map (pyLower r₁.topic) =
      some (resolvedId st r₁) := by
    rw [hcache]; exact publishOneState_id env st r₁
  have hid1' : alook ((publish_to_historian env st [r₁]).2).cache.topic_id_map (pyLower r₂.topic) =
      some (resolvedId st r₁) := by
    rw [← hlow]; exact hid1
  have hname1 : alook ((publish_to_historian env st [r₁]).2).cache.topic_name_map (pyLower r₁.topic) =
      some r₁.topic := by
    rw [hcache]; exact publishOneState_name env st r₁
  have h2 := publish_single_eq env ((publish_to_historian env st [r₁]).2) r₂ hf hco hcr
  have hcache2 : ((publish_to_historian env (publish_to_historian env st [r₁]).2 [r₂]).2).cache =
      (publishOneState env ((publish_to_historian env st [r₁]).2) r₂).cache := by
    rw [h2]
  have hres2 : resolvedId ((publish_to_historian env st [r₁]).2) r₂ = resolvedId st r₁ :=
    resolvedId_known ((publish_to_historian env st [r₁]).2) r₂ (resolvedId st r₁) hid1'
  refine ⟨hid1, ?_, ?_, hname1, ?_⟩
  · rw [hcache2]
    rw [publishOneState_id env ((publish_to_historian env st [r₁]).2) r₂, hres2]
  · rw [hcache2]
    rw [publishOneState_idmap_known env ((publish_to_historian env st [r₁]).2) r₂
      (resolvedId st r₁) hid1']
  · rw [hcache2]
    exact publishOneState_name env ((publish_to_historian env st [r₁]).2) r₂

/-- Witness for C7: Device/Temp then device/temp resolve to id 1; the id
map is unchanged by the second publish and the display name follows the
last-published casing. -/
theorem case_insensitive_topic_ids_witness :
    alook (publish_to_historian pubEnvSep emptyState [recUpper]).2.cache.topic_id_map
      (pyLower recUpper.topic) = some 1 ∧
    alook (publish_to_historian pubEnvSep (publish_to_historian pubEnvSep emptyState [recUpper]).2
        [recLower]).2.cache.topic_id_map (pyLower recLower.topic) = some 1 ∧
    (publish_to_historian pubEnvSep (publish_to_historian pubEnvSep emptyState [recUpper]).2
        [recLower]).2.cache.topic_id_map =
      (publish_to_historian pubEnvSep emptyState [recUpper]).2.cache.topic_id_map ∧
    alook (publish_to_historian pubEnvSep emptyState [recUpper]).2.cache.topic_name_map
      (pyLower recUpper.topic) = some recUpper.topic ∧
    alook (publish_to_historian pubEnvSep (publish_to_historian pubEnvSep emptyState [recUpper]).2
        [recLower]).2.cache.topic_name_map (pyLower recLower.topic) = some recLower.topic :=
  case_insensitive_topic_ids pubEnvSep emptyState recUpper recLower rfl rfl rfl (by rfl)

/-- Claim C2 counterexample: with separate topics and metadata tables, a
record whose topic is not in the cache does get a separate metadata
write (the bulk metadata insert) in the same cycle, so the batch commits
an insertMeta statement; the claim that the metadata write is always
skipped for a cache-miss record is false. -/
theorem new_topic_counterexample :
    (publish_to_historian pubEnvSep emptyState [recA]).2.db.committed.filter
      (fun q => q.isSeparateMetaWrite) = [Stmt.insertMeta 1 [("units", "C")]] := by rfl

/-- Claim C2 (amended): a record whose topic key is not in the cache
triggers a topic insert (combined with metadata in one statement exactly
when co-located and the metadata is nonempty) and the returned id is
cached under the lowercase key; when co-located no separate metadata
write is issued that cycle, while with separate tables a bulk metadata
insert is issued for nonempty metadata. -/
theorem new_topic_write_discipline (env : PubEnv) (st : PubState) (x : Record)
    (hf : env.failAt = none)
    (hid : alook st.cache.topic_id_map (pyLower x.topic) = none)
    (ht : x.topic ≠ "") :
    publishOne env st x = .ok (true, publishOneState env st x) ∧
    alook (publishOneState env st x).cache.topic_id_map (pyLower x.topic) = some st.nextId ∧
    alook (publishOneState env st x).cache.topic_name_map (pyLower x.topic) = some x.topic ∧
    (publishOneState env st x).db.pending = st.db.pending ++
      (if env.colocated = true then
        (if x.meta ≠ [] then
          [Stmt.insertTopicAndMeta x.topic x.meta, Stmt.insertData x.ts st.nextId x.value]
         else [Stmt.insertTopic x.topic, Stmt.insertData x.ts st.nextId x.value])
       else
        (if x.meta ≠ [] then
          [Stmt.insertTopic x.topic, Stmt.insertMeta st.nextId x.meta,
           Stmt.insertData x.ts st.nextId x.value]
         else [Stmt.insertTopic x.topic, Stmt.insertData x.ts st.nextId x.value])) ∧
    (env.colocated = true →
      (publishOneState env st x).db.pending.filter (fun q => q.isSeparateMetaWrite) =
        st.db.pending.filter (fun q => q.isSeparateMetaWrite)) := by
  have hres : resolvedId st x = st.nextId := by
    unfold resolvedId
    rw [hid]
  have hpend : (publishOneState env st x).db.pending = st.db.pending ++
      (if env.colocated = true then
        (if x.meta ≠ [] then
          [Stmt.insertTopicAndMeta x.topic x.meta, Stmt.insertData x.ts st.nextId x.value]
         else [Stmt.insertTopic x.topic, Stmt.insertData x.ts st.nextId x.value])
       else
        (if x.meta ≠ [] then
          [Stmt.insertTopic x.topic, Stmt.insertMeta st.nextId x.meta,
           Stmt.insertData x.ts st.nextId x.value]
         else [Stmt.insertTopic x.topic, Stmt.insertData x.ts st.nextId x.value])) := by
    unfold publishOneState
    simp only [hid]
    by_cases hm : x.meta = []
    · by_cases hc : env.colocated = true <;>
        simp [hm, hc, pushStmt, insertTopicStmt, ht]
    · by_cases hc : env.colocated = true <;>
        simp [hm, hc, pushStmt, insertTopicStmt, ht, Ne.symm]
  refine ⟨publishOne_eq env st x hf, ?_, publishOneState_name env st x, hpend, ?_⟩
  · have := publishOneState_id env st x
    rw [hres] at this
    exact this
  · intro hc
    rw [hpend]
    by_cases hm : x.meta = [] <;>
      simp [hc, hm, List.filter_append, Stmt.isSeparateMetaWrite]

/-- Witness for the amended C2: with co-located tables, a new topic with
nonempty metadata produces one combined insert and one data insert, and
no separate metadata write. -/
theorem new_topic_write_discipline_witness :
    publishOne pubEnvCo emptyState recA = .ok (true, publishOneState pubEnvCo emptyState recA) ∧
    alook (publishOneState pubEnvCo emptyState recA).cache.topic_id_map (pyLower recA.topic) =
      some 1 ∧
    alook (publishOneState pubEnvCo emptyState recA).cache.topic_name_map (pyLower recA.topic) =
      some recA.topic ∧
    (publishOneState pubEnvCo emptyState recA).db.pending =
      [Stmt.insertTopicAndMeta "a" [("units", "C")], Stmt.insertData 100 1 5] ∧
    (publishOneState pubEnvCo emptyState recA).db.pending.filter
      (fun q => q.isSeparateMetaWrite) = [] := by
  have h := new_topic_write_discipline pubEnvCo emptyState recA rfl rfl (by decide)
  refine ⟨h.1, h.2.1, h.2.2.1, ?_, ?_⟩
  · have := h.2.2.2.1
    simpa [pubEnvCo, emptyState, recA] using this
  · have := h.2.2.2.2 rfl
    simpa [emptyState] using this

end SQLHistorian

/-! ### Claims about the connection manager -/

/-- A connection whose commit raises an OperationalError reporting the
database as locked. -/
def lockedConn : BConn := ⟨false, true, .raise true "database is locked"⟩

/-- A healthy connection. -/
def liveConn : BConn := ⟨false, true, .ok⟩

/-- A factory whose connection attempt raises. -/
def cursorEnvFail : CursorEnv := ⟨.error "no route to host"⟩

/-- A factory that returns a healthy connection. -/
def cursorEnvOk : CursorEnv := ⟨.ok (some liveConn)⟩

/-- Claim C8: commit and rollback return False, leaving the state
unchanged, when no connection is open; with a connection they delegate
to the backend: rollback returns True, a clean commit returns True, and
a raising commit re-raises (never returns False), logging remediation
guidance exactly when an OperationalError reports the store locked. -/
theorem commit_rollback_contract :
    (∀ s : DriverState, s.connection = none →
      DbDriver.commit s = .ret false s ∧ DbDriver.rollback s = (false, s)) ∧
    (∀ (s : DriverState) (c : BConn), s.connection = some c →
      DbDriver.rollback s = (true, s)) ∧
    (∀ (s : DriverState) (c : BConn), s.connection = some c → c.commitBehavior = .ok →
      DbDriver.commit s = .ret true s) ∧
    (∀ (s : DriverState) (c : BConn) (isOp : Bool) (msg : String),
      s.connection = some c → c.commitBehavior = .raise isOp msg →
      DbDriver.commit s = .raised msg (isOp && DbDriver.lockedGuidance msg) s) := by
  refine ⟨?_, ?_, ?_, ?_⟩
  · intro s hs
    constructor <;> simp [DbDriver.commit, DbDriver.rollback, hs]
  · intro s c hs
    simp [DbDriver.rollback, hs]
  · intro s c hs hb
    simp [DbDriver.commit, hs, hb]
  · intro s c isOp msg hs hb
    simp [DbDriver.commit, hs, hb]

/-- Witness for C8: the null-connection no-ops, and a locked commit
re-raised with guidance logged. -/
theorem commit_rollback_contract_witness :
    DbDriver.commit ⟨none⟩ = .ret false ⟨none⟩ ∧
    DbDriver.rollback ⟨none⟩ = (false, ⟨none⟩) ∧
    DbDriver.commit ⟨some lockedConn⟩ =
      .raised "database is locked" true ⟨some lockedConn⟩ := by
  have h1 := commit_rollback_contract.1 ⟨none⟩ rfl
  have h4 := commit_rollback_contract.2.2.2 ⟨some lockedConn⟩ lockedConn true
    "database is locked" rfl rfl
  have hg : DbDriver.lockedGuidance "database is locked" = true := by decide
  refine ⟨h1.1, h1.2, ?_⟩
  rw [h4, hg]
  rfl

/-- Claim C9: cursor acquisition uses the live connection when it has
one that is open and yields a cursor; otherwise (no connection, closed
connection, or cursor creation failure) it discards the connection and
reconnects through the factory, so a factory failure surfaces as a
ConnectionError wrapping the cause, while a successful factory call
yields a cursor from the new connection. -/
theorem cursor_contract (env : CursorEnv) (s : DriverState) :
    (∀ c : BConn, s.connection = some c → c.closed = false → c.cursorOk = true →
      DbDriver.cursor env s = .gotCursor false s) ∧
    (DbDriver.needsReconnect s = true → ∀ cause : String,
      env.connectResult = .error cause →
      DbDriver.cursor env s = .connectionError cause ⟨none⟩) ∧
    (DbDriver.needsReconnect s = true → ∀ c' : BConn,
      env.connectResult = .ok (some c') → c'.cursorOk = true →
      DbDriver.cursor env s = .gotCursor true ⟨some c'⟩) := by
  refine ⟨?_, ?_, ?_⟩
  · intro c hc hcl hok
    simp [DbDriver.cursor, hc, hcl, hok]
  · intro hr cause hres
    cases hs : s.connection with
    | none => simp [DbDriver.cursor, DbDriver.cursorReconnect, hs, hres]
    | some c =>
      have hr' : c.closed = true ∨ c.cursorOk = false := by
        unfold DbDriver.needsReconnect at hr
        rw [hs] at hr
        simpa [Bool.or_eq_true, Bool.not_eq_true'] using hr
      rcases hr' with h | h <;>
        simp [DbDriver.cursor, DbDriver.cursorReconnect, hs, hres, h]
  · intro hr c' hres hok
    cases hs : s.connection with
    | none => simp [DbDriver.cursor, DbDriver.cursorReconnect, hs, hres, hok]
    | some c =>
      have hr' : c.closed = true ∨ c.cursorOk = false := by
        unfold DbDriver.needsReconnect at hr
        rw [hs] at hr
        simpa [Bool.or_eq_true, Bool.not_eq_true'] using hr
      rcases hr' with h | h <;>
        simp [DbDriver.cursor, DbDriver.cursorReconnect, hs, hres, hok, h]

/-- Witness for C9: a live connection serves the cursor; with no
connection the factory failure becomes a ConnectionError and a factory
success yields a cursor from the fresh connection. -/
theorem cursor_contract_witness :
    DbDriver.cursor cursorEnvOk ⟨some liveConn⟩ = .gotCursor false ⟨some liveConn⟩ ∧
    DbDriver.cursor cursorEnvFail ⟨none⟩ = .connectionError "no route to host" ⟨none⟩ ∧
    DbDriver.cursor cursorEnvOk ⟨none⟩ = .gotCursor true ⟨some liveConn⟩ :=
  ⟨(cursor_contract cursorEnvOk ⟨some liveConn⟩).1 liveConn rfl rfl rfl,
   (cursor_contract cursorEnvFail ⟨none⟩).2.1 rfl "no route to host" rfl,
   (cursor_contract cursorEnvOk ⟨none⟩).2.2 rfl liveConn rfl rfl⟩

/-! ### Lemmas about query topic resolution -/

namespace SQLHistorian

theorem resolveLookup_cache (env : QueryEnv) (cache : Cache) (aggType : Option String)
    (aggPeriod : String) (topic_lower : String) :
    ((resolveLookup env cache aggType aggPeriod topic_lower).2.topic_id_map =
      cache.topic_id_map) ∧
    ((resolveLookup env cache aggType aggPeriod topic_lower).2.topic_meta =
      cache.topic_meta) ∧
    ((resolveLookup env cache aggType aggPeriod topic_lower).2.topic_name_map =
      cache.topic_name_map) := by
  unfold resolveLookup
  refine ⟨?_, ?_, ?_⟩ <;>
  · by_cases hta : truthyStr aggType = true
    · simp only [hta, if_true]
      cases alook cache.agg_topic_id_map (topic_lower, pyLower (aggType.getD ""), aggPeriod) <;>
        simp
    · simp [hta]

theorem resolveStep_shape (env : QueryEnv) (aggType : Option String) (aggPeriod : String)
    (acc : ResolveAcc) (t : String) :
    ∃ po : Option Nat × Cache,
      po.2.topic_id_map = acc.cache.topic_id_map ∧
      po.2.topic_meta = acc.cache.topic_meta ∧
      po.2.topic_name_map = acc.cache.topic_name_map ∧
      resolveStep env aggType aggPeriod acc t =
        (match idTruthy po.1 with
         | some tid =>
           { acc with topic_ids := acc.topic_ids ++ [tid],
                      id_name_map := aset acc.id_name_map tid t, cache := po.2 }
         | none => { acc with warned := acc.warned ++ [t], cache := po.2 }) := by
  obtain ⟨h1, h2, h3⟩ := resolveLookup_cache env acc.cache aggType aggPeriod (pyLower t)
  exact ⟨resolveLookup env acc.cache aggType aggPeriod (pyLower t), h1, h2, h3, rfl⟩

theorem resolveStep_cases (env : QueryEnv) (aggType : Option String) (aggPeriod : String)
    (acc : ResolveAcc) (t : String) :
    (∃ (tid : Nat) (cache : Cache), resolveStep env aggType aggPeriod acc t =
      { acc with topic_ids := acc.topic_ids ++ [tid],
                 id_name_map := aset acc.id_name_map tid t, cache := cache }) ∨
    (∃ cache : Cache, resolveStep env aggType aggPeriod acc t =
      { acc with warned := acc.warned ++ [t], cache := cache }) := by
  obtain ⟨po, _, _, _, hp⟩ := resolveStep_shape env aggType aggPeriod acc t
  cases ht : idTruthy po.1 with
  | some tid =>
    left
    exact ⟨tid, po.2, by rw [hp, ht]⟩
  | none =>
    right
    exact ⟨po.2, by rw [hp, ht]⟩

theorem resolveFold_ids_nil (env : QueryEnv) (aggType : Option String) (aggPeriod : String) :
    ∀ (topics : List String) (acc : ResolveAcc),
      (topics.foldl (resolveStep env aggType aggPeriod) acc).topic_ids = [] →
      acc.topic_ids = [] ∧
      (topics.foldl (resolveStep env aggType aggPeriod) acc).warned = acc.warned ++ topics := by
  intro topics
  induction topics with
  | nil =>
    intro acc h
    exact ⟨h, by simp⟩
  | cons t rest ih =>
    intro acc h
    rw [List.foldl_cons] at h ⊢
    have hstep := ih (resolveStep env aggType aggPeriod acc t) h
    rcases resolveStep_cases env aggType aggPeriod acc t with ⟨tid, cache, he⟩ | ⟨cache, he⟩
    · rw [he] at hstep
      simp at hstep
    · rw [he] at hstep
      rw [he]
      refine ⟨by simpa using hstep.1, ?_⟩
      rw [hstep.2]
      simp

theorem resolveStep_cache_fixed (env : QueryEnv) (aggType : Option String) (aggPeriod : String)
    (acc : ResolveAcc) (t : String) :
    ((resolveStep env aggType aggPeriod acc t).cache.topic_id_map = acc.cache.topic_id_map) ∧
    ((resolveStep env aggType aggPeriod acc t).cache.topic_meta = acc.cache.topic_meta) ∧
    ((resolveStep env aggType aggPeriod acc t).cache.topic_name_map = acc.cache.topic_name_map) := by
  obtain ⟨po, h1, h2, h3, hp⟩ := resolveStep_shape env aggType aggPeriod acc t
  cases ht : idTruthy po.1 with
  | some tid =>
    rw [hp, ht]
    exact ⟨h1, h2, h3⟩
  | none =>
    rw [hp, ht]
    exact ⟨h1, h2, h3⟩

theorem resolveFold_cache_fixed (env : QueryEnv) (aggType : Option String) (aggPeriod : String) :
    ∀ (topics : List String) (acc : ResolveAcc),
      ((topics.foldl (resolveStep env aggType aggPeriod) acc).cache.topic_id_map =
        acc.cache.topic_id_map) ∧
      ((topics.foldl (resolveStep env aggType aggPeriod) acc).cache.topic_meta =
        acc.cache.topic_meta) := by
  intro topics
  induction topics with
  | nil => intro acc; exact ⟨rfl, rfl⟩
  | cons t rest ih =>
    intro acc
    rw [List.foldl_cons]
    have hs := resolveStep_cache_fixed env aggType aggPeriod acc t
    have hr := ih (resolveStep env aggType aggPeriod acc t)
    exact ⟨hr.1.trans hs.1, hr.2.trans hs.2.1⟩

/-! ### Claims about query_historian -/

/-- Claim C5: when no requested topic name resolves to an id, the query
returns the empty result immediately, never invokes the backend range
query, and has warned about (and excluded) every requested name. -/
theorem query_no_ids_empty (env : QueryEnv) (cache : Cache) (topic : TopicArg)
    (aggType : Option String) (aggPeriod : String)
    (h : (resolveTopics env cache aggType aggPeriod (topicsOf topic)).topic_ids = []) :
    (query_historian env cache topic aggType aggPeriod).result = .empty ∧
    (query_historian env cache topic aggType aggPeriod).dbQueried = false ∧
    (query_historian env cache topic aggType aggPeriod).warned = topicsOf topic := by
  have hw := resolveFold_ids_nil env aggType aggPeriod (topicsOf topic) ⟨[], [], cache, []⟩
    (by simpa [resolveTopics] using h)
  unfold query_historian
  simp only [h, if_pos rfl]
  refine ⟨rfl, rfl, ?_⟩
  simpa [resolveTopics] using hw.2

/-- A query environment whose backend returns rows for two topics. -/
def qenvMulti : QueryEnv := ⟨fun _ _ => [("t1", [(1, 10)]), ("t2", [(2, 20)])], []⟩

/-- A query environment whose backend returns rows for one topic. -/
def qenvSingle : QueryEnv := ⟨fun _ _ => [("t1", [(1, 10)])], []⟩

/-- A query environment whose backend returns nothing (and an empty
aggregate map), for unresolvable-topic queries. -/
def qenvEmpty : QueryEnv := ⟨fun _ _ => [], []⟩

/-- A cache with two topics, the first carrying metadata. -/
def qcacheTwo : Cache :=
  ⟨[("t1", 1), ("t2", 2)], [("t1", "t1"), ("t2", "t2")], [(1, [("u", "C")])], []⟩

/-- Witness for C5: querying one unknown name yields the empty result
without querying the backend, and warns about the name. -/
theorem query_no_ids_empty_witness :
    (query_historian qenvEmpty qcacheTwo (.single "zz") none "").result = .empty ∧
    (query_historian qenvEmpty qcacheTwo (.single "zz") none "").dbQueried = false ∧
    (query_historian qenvEmpty qcacheTwo (.single "zz") none "").warned = ["zz"] :=
  query_no_ids_empty qenvEmpty qcacheTwo (.single "zz") none "" (by rfl)

/-- Claim C4 counterexample: a two-topic query with non-empty backend
results does not return a bare name-to-values mapping without metadata;
it returns the values/metadata envelope with an (empty) metadata entry
attached. -/
theorem query_multi_envelope_counterexample :
    (query_historian qenvMulti qcacheTwo (.many ["t1", "t2"]) none "").result =
      .multi [("t1", [(1, 10)]), ("t2", [(2, 20)])] [] ∧
    ((query_historian qenvMulti qcacheTwo (.many ["t1", "t2"]) none "").result).hasMetadataEntry
      = true :=
  ⟨rfl, rfl⟩

/-- Claim C4 (amended): with non-empty backend results, a single-topic
raw query unwraps to the values/metadata envelope with metadata taken
from the first resolved (non-aggregate) topic id; a single-topic
aggregate query takes metadata from the underlying non-aggregate topic
id when the name is in the topic map and the empty mapping otherwise;
a multi-topic query returns the envelope whose values field is the
name-to-values mapping and whose metadata is the empty mapping. -/
theorem query_result_assembly (env : QueryEnv) (cache : Cache)
    (aggType : Option String) (aggPeriod : String) :
    (∀ (t : String) (tid : Nat) (ids' : List Nat) (n : String)
        (vs : List (Nat × Int)) (vrest : List (String × List (Nat × Int))),
      truthyStr aggType = false →
      (resolveTopics env cache aggType aggPeriod [t]).topic_ids = tid :: ids' →
      env.dbQuery (resolveTopics env cache aggType aggPeriod [t]).topic_ids
        (resolveTopics env cache aggType aggPeriod [t]).id_name_map = (n, vs) :: vrest →
      vs ≠ [] →
      (query_historian env cache (.single t) aggType aggPeriod).result =
        .single vs ((alook cache.topic_meta tid).getD [])) ∧
    (∀ (t : String) (tid : Nat) (ids' : List Nat) (n : String)
        (vs : List (Nat × Int)) (vrest : List (String × List (Nat × Int))),
      truthyStr aggType = true →
      (resolveTopics env cache aggType aggPeriod [t]).topic_ids = tid :: ids' →
      env.dbQuery (resolveTopics env cache aggType aggPeriod [t]).topic_ids
        (resolveTopics env cache aggType aggPeriod [t]).id_name_map = (n, vs) :: vrest →
      vs ≠ [] →
      (query_historian env cache (.single t) aggType aggPeriod).result =
        .single vs (((alook cache.topic_id_map (pyLower t)).bind
          (alook cache.topic_meta)).getD [])) ∧
    (∀ (ts : List String) (tid : Nat) (ids' : List Nat)
        (values : List (String × List (Nat × Int))),
      ts.length > 1 →
      (resolveTopics env cache aggType aggPeriod ts).topic_ids = tid :: ids' →
      env.dbQuery (resolveTopics env cache aggType aggPeriod ts).topic_ids
        (resolveTopics env cache aggType aggPeriod ts).id_name_map = values →
      values ≠ [] →
      (query_historian env cache (.many ts) aggType aggPeriod).result =
        .multi values []) := by
  have hfix := resolveFold_cache_fixed env aggType aggPeriod
  refine ⟨?_, ?_, ?_⟩
  · intro t tid ids' n vs vrest hagg hids hdb hvs
    rw [hids] at hdb
    unfold query_historian
    simp only [topicsOf, hids, hdb, hagg]
    have hmeta : (resolveTopics env cache aggType aggPeriod [t]).cache.topic_meta =
        cache.topic_meta := (hfix [t] ⟨[], [], cache, []⟩).2
    simp [hvs, Option.bind, hmeta]
  · intro t tid ids' n vs vrest hagg hids hdb hvs
    rw [hids] at hdb
    unfold query_historian
    simp only [topicsOf, hids, hdb, hagg]
    have hmeta : (resolveTopics env cache aggType aggPeriod [t]).cache.topic_meta =
        cache.topic_meta := (hfix [t] ⟨[], [], cache, []⟩).2
    have hidm : (resolveTopics env cache aggType aggPeriod [t]).cache.topic_id_map =
        cache.topic_id_map := (hfix [t] ⟨[], [], cache, []⟩).1
    simp [hvs, hmeta, hidm]
  · intro ts tid ids' values hlen hids hdb hvals
    rw [hids] at hdb
    unfold query_historian
    simp only [topicsOf, hids, hdb]
    simp [hlen, hvals, Option.bind, Nat.lt_irrefl]

/-- Witness for the amended C4: a single-topic raw query unwraps with
the topic's metadata; a two-topic query keeps the mapping inside the
envelope with empty metadata. -/
theorem query_result_assembly_witness :
    (query_historian qenvSingle qcacheTwo (.single "t1") none "").result =
      .single [(1, 10)] [("u", "C")] ∧
    (query_historian qenvMulti qcacheTwo (.many ["t1", "t2"]) none "").result =
      .multi [("t1", [(1, 10)]), ("t2", [(2, 20)])] [] := by
  have h1 := (query_result_assembly qenvSingle qcacheTwo none "").1 "t1" 1 [] "t1"
    [(1, 10)] [] rfl (by rfl) (by rfl) (by decide)
  have h2 := (query_result_assembly qenvMulti qcacheTwo none "").2.2 ["t1", "t2"] 1 [2]
    [("t1", [(1, 10)]), ("t2", [(2, 20)])] (by decide) (by rfl) (by rfl) (by decide)
  exact ⟨h1, h2⟩

end SQLHistorian

end VolttronSQL
